import Mathlib

/-!
# Honsen WMS — inventory ledger engine: shallow embedding and verification

This file embeds the ledger engine of `db_manager.py` (the operations that
mutate `current_stock` in lockstep with the transactions table) as pure Lean
functions over an explicit database state, and proves/refutes the frozen
claims about it.

Modelling conventions:
* a SQLite row of `inventory` is an `Item`, a row of `transactions` a `Txn`;
  the whole database is a `DB` (lists of rows plus the AUTOINCREMENT counter
  for transaction ids);
* machine integers are `Int` (Python/SQLite integers are unbounded here);
* `UPDATE ... WHERE id = ?` is a `List.map` touching the matching rows;
  `SELECT ... WHERE id = ?` with `fetchone` is `List.find?`;
  a Python dict keyed by the primary key is an association list
  (`List (Nat × Int)`), faithful because primary keys are unique;
* each store call opens its own connection, commits on success and rolls
  back on failure, so a fallible operation is `DB → Option DB`: `none`
  means the Python function returned `False` leaving the database unchanged;
* `datetime.now()` is threaded in as an explicit `now : String` argument.
-/

namespace HonsenWMS

/-- A row of the `inventory` table. -/
structure Item where
  id : Nat
  name : String
  reference : String
  category : String
  domain : String
  unit : String
  current_stock : Int
  min_stock : Int
  location : String
  deriving Repr, DecidableEq

/-- A row of the `transactions` table. -/
structure Txn where
  id : Nat
  item_id : Nat
  date : String
  type : String
  quantity : Int
  recipient_source : String
  project_ref : String
  deriving Repr, DecidableEq

/-- The database state: both tables plus the AUTOINCREMENT counter of
`transactions.id`. -/
structure DB where
  items : List Item
  txns : List Txn
  next_tx_id : Nat
  deriving Repr, DecidableEq

/-- Models `SELECT current_stock FROM inventory WHERE id = ?` + `fetchone`. -/
def getStock (db : DB) (item_id : Nat) : Option Int :=
  (db.items.find? (fun it => it.id == item_id)).map Item.current_stock

/-- Models `UPDATE inventory SET current_stock = current_stock + δ WHERE id = ?`. -/
def applyStockDelta (items : List Item) (item_id : Nat) (δ : Int) : List Item :=
  items.map fun it =>
    if it.id == item_id then { it with current_stock := it.current_stock + δ } else it

/-- Models the row append of `INSERT INTO transactions (item_id, date, type,
quantity, recipient_source, project_ref) VALUES (...)` with the next
AUTOINCREMENT id. The schema's `CHECK(type IN ('IN', 'OUT', 'REVERSAL-IN',
'REVERSAL-OUT'))` (db_manager.py:91) is modelled at each call site:
`record_transaction` guards with `typeCheckOK` on its arbitrary type
argument, while `reverse_transaction` and the batch commit loop only ever
insert enum literals, which always satisfy the constraint. -/
def insertTxn (db : DB) (item_id : Nat) (date ty : String) (quantity : Int)
    (recipient_source project_ref : String) : DB :=
  { db with
    txns := db.txns ++ [⟨db.next_tx_id, item_id, date, ty, quantity,
                          recipient_source, project_ref⟩],
    next_tx_id := db.next_tx_id + 1 }

/-- Models the `transactions` table's `CHECK(type IN ('IN', 'OUT',
'REVERSAL-IN', 'REVERSAL-OUT'))` constraint (db_manager.py:91): an `INSERT`
with any other type string raises `IntegrityError`. -/
def typeCheckOK (ty : String) : Bool :=
  ty == "IN" || ty == "OUT" || ty == "REVERSAL-IN" || ty == "REVERSAL-OUT"

/-- Embeds `record_transaction` (db_manager.py:482-519): single transaction.
The stock check runs only for type `OUT`; the stock delta is `+quantity`
when the type equals `IN` and `-quantity` for every other type string. When
the type violates the schema's CHECK constraint the `INSERT` raises
`IntegrityError`, the `except sqlite3.Error` handler rolls back, and the
function returns `False` — hence success additionally requires
`typeCheckOK`. -/
def record_transaction (db : DB) (item_id : Nat) (date : String) (type : String)
    (quantity : Int) (recipient_source project_ref : String) : Option DB :=
  let stock_change : Int := if type == "IN" then quantity else -quantity
  let proceed : Option DB :=
    if typeCheckOK type then
      some (insertTxn { db with items := applyStockDelta db.items item_id stock_change }
        item_id date type quantity recipient_source project_ref)
    else none
  if type == "OUT" then
    match getStock db item_id with
    | none => none
    | some current_stock => if current_stock < quantity then none else proceed
  else
    proceed

/-- One line of a batch: `{'item_id': ..., 'quantity': ..., 'project_ref': ...}`. -/
structure BatchLine where
  item_id : Nat
  quantity : Int
  project_ref : String
  deriving Repr, DecidableEq

/-- Result dictionary of `batch_record_transactions`. `invalid_type` models the
`\x7b'error': '无效的交易类型'\x7d` entry appended when the type is neither IN
nor OUT. -/
structure BatchResult where
  successful_count : Nat
  failed_transactions : List BatchLine
  invalid_type : Bool
  deriving Repr, DecidableEq

instance {ε α : Type} [DecidableEq ε] [DecidableEq α] : DecidableEq (Except ε α) :=
  fun a b =>
  match a, b with
  | .error x, .error y =>
    match decEq x y with
    | .isTrue h => .isTrue (by rw [h])
    | .isFalse h => .isFalse (by intro c; cases c; exact h rfl)
  | .error _, .ok _ => .isFalse (fun c => Except.noConfusion c)
  | .ok _, .error _ => .isFalse (fun c => Except.noConfusion c)
  | .ok x, .ok y =>
    match decEq x y with
    | .isTrue h => .isTrue (by rw [h])
    | .isFalse h => .isFalse (by intro c; cases c; exact h rfl)

/-- The in-memory stock dict `inventory_stocks = \x7brow[0]: row[1]\x7d`. -/
def stocksOf (items : List Item) : List (Nat × Int) :=
  items.map fun it => (it.id, it.current_stock)

/-- Dict lookup `inventory_stocks[item_id]` / `item_id in inventory_stocks`. -/
def lookupStock (m : List (Nat × Int)) (item_id : Nat) : Option Int :=
  (m.find? (fun p => p.1 == item_id)).map Prod.snd

/-- Dict update `inventory_stocks[item_id] += δ` (keys are unique). -/
def adjustStock (m : List (Nat × Int)) (item_id : Nat) (δ : Int) : List (Nat × Int) :=
  m.map fun p => if p.1 == item_id then (p.1, p.2 + δ) else p

/-- The pre-check loop of `batch_record_transactions` (db_manager.py:556-578):
walks the lines updating the in-memory stocks; an unknown item is appended to
`failed_transactions` and skipped (note: the source never sets `tx['error']`
for it); an insufficient OUT line is appended to `failed_transactions` and
aborts the whole batch (`raise ValueError`), carried here as `.error` with the
failed list accumulated so far. -/
def precheck (type_upper : String) :
    List (Nat × Int) → List BatchLine → List BatchLine →
    Except (List BatchLine) (List (Nat × Int) × List BatchLine)
  | stocks, [], failed => .ok (stocks, failed)
  | stocks, tx :: rest, failed =>
    match lookupStock stocks tx.item_id with
    | none => precheck type_upper stocks rest (failed ++ [tx])
    | some current_stock =>
      if type_upper == "OUT" then
        if current_stock < tx.quantity then .error (failed ++ [tx])
        else precheck type_upper (adjustStock stocks tx.item_id (-tx.quantity)) rest failed
      else
        precheck type_upper (adjustStock stocks tx.item_id tx.quantity) rest failed

/-- One iteration of the commit loop of `batch_record_transactions`
(db_manager.py:591-614): stock `UPDATE` plus `INSERT` of the row. In the
committing path no line carries an `'error'` mark (the only mark is written on
the aborting line, after which the loop is never reached), so every line is
applied — including lines whose `item_id` does not exist, for which the
`UPDATE` touches zero rows but the `INSERT` still appends a row (the foreign
key on `item_id` is not enforced: the code never issues `PRAGMA
foreign_keys`). The inserted type is `type_upper`, already restricted to
`IN`/`OUT` when this loop runs, so the schema's type CHECK always passes
here. -/
def applyLine (type_upper recipient_source now : String) (db : DB) (tx : BatchLine) : DB :=
  let stock_change : Int := if type_upper == "IN" then tx.quantity else -tx.quantity
  insertTxn { db with items := applyStockDelta db.items tx.item_id stock_change }
    tx.item_id now type_upper tx.quantity recipient_source tx.project_ref

/-- Python's `str.upper()` (character-wise uppercasing). -/
def pyUpper (s : String) : String := ⟨s.data.map Char.toUpper⟩

/-- Python's `str.startswith(pre)`. -/
def pyStartswith (s pre : String) : Bool := pre.data.isPrefixOf s.data

/-- Embeds `batch_record_transactions` (db_manager.py:522-645). Returns the result
dictionary and the database state after the call (unchanged on abort, i.e.
after `conn.rollback()`). -/
def batch_record_transactions (db : DB) (transaction_type recipient_source : String)
    (transactions : List BatchLine) (now : String) : BatchResult × DB :=
  let type_upper := pyUpper transaction_type
  if type_upper == "IN" || type_upper == "OUT" then
    match precheck type_upper (stocksOf db.items) transactions [] with
    | .error failed =>
      ({ successful_count := 0, failed_transactions := failed, invalid_type := false }, db)
    | .ok (_, failed) =>
      let db' := transactions.foldl (applyLine type_upper recipient_source now) db
      ({ successful_count := transactions.length, failed_transactions := failed,
         invalid_type := false }, db')
  else
    ({ successful_count := 0, failed_transactions := [], invalid_type := true }, db)

/-- Embeds `reverse_transaction` (db_manager.py:733-799): looks up the original row,
derives the reversal type and stock change, checks stock only when the change
is negative (the source compares `current_stock < original_qty` there), then
applies the change and appends the compensating row. Any type other than
`IN`/`OUT` (including the `REVERSAL*` family) is refused. -/
def reverse_transaction (db : DB) (tx_id : Nat) (now : String) : Option DB :=
  match db.txns.find? (fun t => t.id == tx_id) with
  | none => none
  | some otx =>
    let build : String → Int → String → Option DB := fun reverse_type stock_change new_rs =>
      let proceed : DB :=
        insertTxn { db with items := applyStockDelta db.items otx.item_id stock_change }
          otx.item_id now reverse_type otx.quantity new_rs
          ("冲销-原项目:" ++ otx.project_ref)
      if stock_change < 0 then
        match getStock db otx.item_id with
        | none => none
        | some current_stock =>
          if current_stock < otx.quantity then none else some proceed
      else some proceed
    if otx.type == "IN" then
      build "REVERSAL-OUT" (-otx.quantity)
        ("冲销-入库 (原ID:" ++ toString tx_id ++ ", " ++ otx.recipient_source ++ ")")
    else if otx.type == "OUT" then
      build "REVERSAL-IN" otx.quantity
        ("冲销-出库 (原ID:" ++ toString tx_id ++ ", " ++ otx.recipient_source ++ ")")
    else
      none

/-- Embeds `delete_transaction` (db_manager.py:802-866): computes the stock change to
apply on deletion from the row's type exactly as the source does (note the
source's `REVERSAL-IN` case applies `+quantity` and `REVERSAL-OUT` applies
`-quantity`), checks non-negativity only when the change is negative, then
applies the change and removes the row. -/
def delete_transaction (db : DB) (tx_id : Nat) : Option DB :=
  match db.txns.find? (fun t => t.id == tx_id) with
  | none => none
  | some tx =>
    let sc? : Option Int :=
      if tx.type == "IN" then some (-tx.quantity)
      else if tx.type == "OUT" then some tx.quantity
      else if tx.type == "REVERSAL-IN" then some tx.quantity
      else if tx.type == "REVERSAL-OUT" then some (-tx.quantity)
      else none
    match sc? with
    | none => none
    | some stock_change =>
      let proceed : DB :=
        { db with
          items := applyStockDelta db.items tx.item_id stock_change,
          txns := db.txns.filter (fun t => !(t.id == tx_id)) }
      if stock_change < 0 then
        match getStock db tx.item_id with
        | none => none
        | some current_stock =>
          if current_stock + stock_change < 0 then none else some proceed
      else some proceed

/-- Embeds `update_transaction` (db_manager.py:903-980): refuses `REVERSAL*` rows,
computes `total = undo + apply` from the sign of the original type (`IN`
versus everything else, which the source treats as `OUT`), checks stock only
when `total < 0`, then applies `total` to the item and overwrites
quantity/date/recipient_source/project_ref on the row. -/
def update_transaction (db : DB) (tx_id : Nat) (quantity : Int)
    (date recipient_source project_ref : String) : Option DB :=
  match db.txns.find? (fun t => t.id == tx_id) with
  | none => none
  | some tx =>
    if pyStartswith tx.type "REVERSAL" then none
    else
      let undo_change : Int := if tx.type == "IN" then -tx.quantity else tx.quantity
      let apply_change : Int := if tx.type == "IN" then quantity else -quantity
      let total_stock_change := undo_change + apply_change
      let proceed : DB :=
        { db with
          items := applyStockDelta db.items tx.item_id total_stock_change,
          txns := db.txns.map fun t =>
            if t.id == tx_id then
              { t with quantity := quantity, date := date,
                       recipient_source := recipient_source, project_ref := project_ref }
            else t }
      if total_stock_change < 0 then
        match getStock db tx.item_id with
        | none => none
        | some current_stock =>
          if current_stock + total_stock_change < 0 then none else some proceed
      else some proceed

/-- The `UNIQUE` constraints of the `inventory` table on `name` and
`reference`: an `UPDATE` violating them raises `IntegrityError` (→ `False`). -/
def namesRefsUnique : List Item → Bool
  | [] => true
  | it :: rest =>
    rest.all (fun j => it.name != j.name && it.reference != j.reference) &&
      namesRefsUnique rest

/-- Embeds `update_inventory_item` (db_manager.py:274-304): overwrites the non-stock
catalog fields of the matching row; `current_stock` is not in the `SET` list. -/
def update_inventory_item (db : DB) (item_id : Nat) (name reference category
    domain unit : String) (min_stock : Int) (location : String) : Option DB :=
  let items' := db.items.map fun it =>
    if it.id == item_id then
      { it with name := name, reference := reference, category := category,
                domain := domain, unit := unit, min_stock := min_stock,
                location := location }
    else it
  if namesRefsUnique items' then some { db with items := items' } else none

/-- The signed stock effect of a ledger row, per the sign table of spec §4.2:
IN `+q`, OUT `−q`, REVERSAL-IN `+q`, REVERSAL-OUT `−q`. -/
def signed_effect (t : Txn) : Int :=
  if t.type == "IN" then t.quantity
  else if t.type == "OUT" then -t.quantity
  else if t.type == "REVERSAL-IN" then t.quantity
  else if t.type == "REVERSAL-OUT" then -t.quantity
  else 0

/-- Sum of the signed effects of the surviving rows referencing an item. -/
def ledgerSum (db : DB) (item_id : Nat) : Int :=
  ((db.txns.filter (fun t => t.item_id == item_id)).map signed_effect).sum

/-- Invariant I1 of the spec: every item's `current_stock` equals the sum of
the signed effects of the surviving rows referencing it. -/
def invariantI1 (db : DB) : Prop :=
  ∀ it ∈ db.items, it.current_stock = ledgerSum db it.id

instance : DecidablePred invariantI1 := fun db =>
  inferInstanceAs (Decidable (∀ it ∈ db.items, it.current_stock = ledgerSum db it.id))

/-- All items have non-negative stock (`current_stock ≥ 0 in steady state`). -/
def stocksNonneg (db : DB) : Prop := ∀ it ∈ db.items, 0 ≤ it.current_stock

instance : DecidablePred stocksNonneg := fun db =>
  inferInstanceAs (Decidable (∀ it ∈ db.items, 0 ≤ it.current_stock))

/-- Item ids are pairwise distinct (the `inventory.id` primary key). -/
def itemIdsNodup (db : DB) : Prop := (db.items.map Item.id).Nodup

instance : DecidablePred itemIdsNodup := fun db =>
  inferInstanceAs (Decidable ((db.items.map Item.id).Nodup))

/-- All ledger rows carry a non-negative quantity (§3: quantity is positive). -/
def qtysNonneg (db : DB) : Prop := ∀ t ∈ db.txns, 0 ≤ t.quantity

instance : DecidablePred qtysNonneg := fun db =>
  inferInstanceAs (Decidable (∀ t ∈ db.txns, 0 ≤ t.quantity))

/-- One call to a Ledger Store operation, with its arguments. -/
inductive LedgerOp where
  | record (item_id : Nat) (date type : String) (quantity : Int)
      (recipient_source project_ref : String)
  | batch (transaction_type recipient_source : String) (lines : List BatchLine)
      (now : String)
  | reverse (tx_id : Nat) (now : String)
  | update (tx_id : Nat) (quantity : Int) (date recipient_source project_ref : String)
  | delete (tx_id : Nat)

/-- State left by a Ledger Store call; `none` means the call failed (rolled
back, state unchanged). A batch call always returns the state of its result
pair. -/
def applyOp (db : DB) : LedgerOp → Option DB
  | .record i d t q r p => record_transaction db i d t q r p
  | .batch t r ls now => some (batch_record_transactions db t r ls now).2
  | .reverse i now => reverse_transaction db i now
  | .update i q d r p => update_transaction db i q d r p
  | .delete i => delete_transaction db i

/-- Arguments within the documented interface: single and batch recording use
the `IN`/`OUT` types only, with non-negative quantities (§3/§4.2). -/
def opOK : LedgerOp → Prop
  | .record _ _ t q _ _ => (t = "IN" ∨ t = "OUT") ∧ 0 ≤ q
  | .batch t _ ls _ => (pyUpper t = "IN" ∨ pyUpper t = "OUT") ∧ ∀ l ∈ ls, 0 ≤ l.quantity
  | _ => True

/-- A catalog item used by the concrete test databases. -/
def exItem (i : Nat) (s : Int) : Item :=
  ⟨i, "item" ++ toString i, "ref" ++ toString i, "cat", "dom", "pcs", s, 0, "A1"⟩

/-- One item, stock 0, empty ledger: satisfies invariant I1. -/
def c1_db : DB := ⟨[exItem 1 0], [], 1⟩

/-- State after IN 5, OUT 3, reversing the OUT, then deleting the
REVERSAL-IN row: stock 8, surviving rows IN 5 and OUT 3 (signed sum 2). -/
def c1_final : DB :=
  ⟨[exItem 1 8], [⟨1, 1, "d1", "IN", 5, "X", ""⟩, ⟨2, 1, "d2", "OUT", 3, "Bob", "P"⟩], 4⟩

/-- C1 — code bug. Starting from a state satisfying invariant I1, the
canonical sequence record IN 5, record OUT 3, reverse the OUT (appending a
REVERSAL-IN row), delete that REVERSAL-IN row, succeeds at every step, but
`delete_transaction` adds `+q` for a REVERSAL-IN row (db_manager.py:829)
instead of the inverse `−q` of its `+q` effect, leaving `current_stock = 8`
while the surviving rows' signed effects sum to `2`: I1 is violated. -/
theorem C1_invariant_broken_by_delete_of_reversal :
    invariantI1 c1_db ∧
    ((((record_transaction c1_db 1 "d1" "IN" 5 "X" "").bind
        fun db => record_transaction db 1 "d2" "OUT" 3 "Bob" "P").bind
        fun db => reverse_transaction db 2 "d3").bind
        fun db => delete_transaction db 3) = some c1_final ∧
    getStock c1_final 1 = some 8 ∧ ledgerSum c1_final 1 = 2 ∧
    ¬ invariantI1 c1_final := by decide

/-- One item, stock 0, empty ledger, all stocks non-negative. -/
def c2_db : DB := ⟨[exItem 1 0], [], 1⟩

/-- State after `record_transaction` with type `REVERSAL-IN`: stock −1. -/
def c2_final : DB := ⟨[exItem 1 (-1)], [⟨1, 1, "d", "REVERSAL-IN", 1, "r", "p"⟩], 2⟩

/-- C2 — counterexample. From a state with every `current_stock ≥ 0`, the
Ledger Store operation `record_transaction` with type `REVERSAL-IN` and
quantity 1 succeeds (the stock pre-check runs only for type `OUT`,
db_manager.py:493) and leaves `current_stock = −1 < 0`. -/
theorem C2_counterexample :
    stocksNonneg c2_db ∧
    applyOp c2_db (.record 1 "d" "REVERSAL-IN" 1 "r" "p") = some c2_final ∧
    ¬ stocksNonneg c2_final := by decide

/-- An empty inventory (item 1 does not exist). -/
def c3_db : DB := ⟨[], [], 1⟩

/-- C3 — counterexample. `record_transaction` with type `IN` against an item
id that does not exist does not fail: it returns success and appends a
transaction row (the existence check runs only for type `OUT`,
db_manager.py:493-498), refuting "requires the referenced item to exist
(failing with no state change when it does not, for every transaction
type)". -/
theorem C3_counterexample :
    getStock c3_db 1 = none ∧
    record_transaction c3_db 1 "d" "IN" 5 "r" "p" =
      some ⟨[], [⟨1, 1, "d", "IN", 5, "r", "p"⟩], 2⟩ := by decide

/-- Two items: stock 10 and stock 3. -/
def c4_db : DB := ⟨[exItem 1 10, exItem 2 3], [], 1⟩

/-- C4 — counterexample. A two-line OUT batch whose second line exceeds stock
aborts with both stocks unchanged and no row written, but only the offending
second line appears in `failed_transactions` (the abort handler returns the
list accumulated so far, db_manager.py:620-626): the first line is *not*
reported as failed, refuting "all lines are reported as failed". -/
theorem C4_counterexample :
    batch_record_transactions c4_db "OUT" "Bob" [⟨1, 5, "P"⟩, ⟨2, 5, "P"⟩] "now" =
      ({ successful_count := 0, failed_transactions := [⟨2, 5, "P"⟩],
         invalid_type := false }, c4_db) ∧
    (⟨1, 5, "P"⟩ : BatchLine) ∉
      (batch_record_transactions c4_db "OUT" "Bob" [⟨1, 5, "P"⟩, ⟨2, 5, "P"⟩]
        "now").1.failed_transactions := by decide

/-- One item, stock 7. -/
def c5_db : DB := ⟨[exItem 1 7], [], 1⟩

/-- State after the C5 batch: the unknown-item line was committed too. -/
def c5_final : DB :=
  ⟨[exItem 1 9], [⟨1, 99, "now", "IN", 5, "Src", "P"⟩, ⟨2, 1, "now", "IN", 2, "Src", "P"⟩], 3⟩

/-- C5 — code bug. In a batch with an unknown `item_id` line, the pre-check
appends the line to `failed_transactions` but never sets its `'error'` mark
(db_manager.py:563-566), so the commit loop's `if 'error' in tx: continue`
guard (db_manager.py:600-601) does not skip it: the line still gets a
transaction row written (against the non-existent item id 99) and is counted
in `successful_count` (= 2 here, not 1), contradicting the code's own
pre-check intent and the claim. -/
theorem C5_unknown_item_line_still_committed :
    batch_record_transactions c5_db "IN" "Src" [⟨99, 5, "P"⟩, ⟨1, 2, "P"⟩] "now" =
      ({ successful_count := 2, failed_transactions := [⟨99, 5, "P"⟩],
         invalid_type := false }, c5_final) ∧
    (⟨1, 99, "now", "IN", 5, "Src", "P"⟩ : Txn) ∈ c5_final.txns := by decide

/-- One item, stock 5, and one REVERSAL-IN row of quantity 3 (its signed
effect is `+3`, per the sign table and per `reverse_transaction`). -/
def c8_db : DB := ⟨[exItem 1 5], [⟨1, 1, "d", "REVERSAL-IN", 3, "r", "p"⟩], 2⟩

/-- C8 — code bug. Deleting the REVERSAL-IN row of quantity 3 should apply
the exact inverse of its `+3` signed effect, i.e. `−3` (stock 5 → 2), but
`delete_transaction` applies `+3` (db_manager.py:829: `stock_change =
quantity` for REVERSAL-IN), leaving stock 8 — the opposite sign. The analogous
REVERSAL-OUT case is flipped too. (The claim's concrete IN instance does hold:
deleting an IN of 10 at stock 5 is refused.) -/
theorem C8_delete_reversal_wrong_sign :
    delete_transaction c8_db 1 = some ⟨[exItem 1 8], [], 2⟩ ∧
    signed_effect ⟨1, 1, "d", "REVERSAL-IN", 3, "r", "p"⟩ = 3 ∧
    (5 : Int) - 3 = 2 ∧
    delete_transaction ⟨[exItem 1 5], [⟨1, 1, "d", "IN", 10, "r", "p"⟩], 2⟩ 1 =
      none := by decide

/-! ## Helper lemmas about the stock `UPDATE` and the in-memory dict -/

theorem applyStockDelta_nonneg {items : List Item} {i : Nat} {δ : Int}
    (hnn : ∀ j ∈ items, 0 ≤ j.current_stock) (hδ : 0 ≤ δ) :
    ∀ j' ∈ applyStockDelta items i δ, 0 ≤ j'.current_stock := by
  intro j' hj'
  obtain ⟨j, hj, rfl⟩ := List.mem_map.mp hj'
  by_cases h : (j.id == i) = true
  · simp only [h, if_pos]
    exact add_nonneg (hnn j hj) hδ
  · simp only [h, if_neg, Bool.false_eq_true, not_false_iff, ite_false]
    exact hnn j hj

theorem eq_of_mem_of_find?_nodup {items : List Item} {i : Nat} {it0 j : Item}
    (hnd : (items.map Item.id).Nodup)
    (hfind : items.find? (fun it => it.id == i) = some it0)
    (hj : j ∈ items) (hji : j.id = i) : j = it0 := by
  have hmem : it0 ∈ items := List.mem_of_find?_eq_some hfind
  have hit0 : it0.id = i := by simpa using List.find?_some hfind
  exact List.inj_on_of_nodup_map hnd hj hmem (by rw [hji, hit0])

theorem applyStockDelta_nonneg_checked {items : List Item} {i : Nat} {δ : Int}
    {it0 : Item} (hnd : (items.map Item.id).Nodup)
    (hnn : ∀ j ∈ items, 0 ≤ j.current_stock)
    (hfind : items.find? (fun it => it.id == i) = some it0)
    (hsafe : 0 ≤ it0.current_stock + δ) :
    ∀ j' ∈ applyStockDelta items i δ, 0 ≤ j'.current_stock := by
  intro j' hj'
  obtain ⟨j, hj, rfl⟩ := List.mem_map.mp hj'
  by_cases h : (j.id == i) = true
  · have : j = it0 := eq_of_mem_of_find?_nodup hnd hfind hj (by simpa using h)
    subst this
    simpa [h] using hsafe
  · simp only [h, if_neg, Bool.false_eq_true, not_false_iff, ite_false]
    exact hnn j hj

theorem getStock_some {db : DB} {i : Nat} {s : Int} (h : getStock db i = some s) :
    ∃ it0, db.items.find? (fun it => it.id == i) = some it0 ∧
      it0.current_stock = s := by
  simpa [getStock] using h

theorem adjustStock_keys (m : List (Nat × Int)) (i : Nat) (δ : Int) :
    (adjustStock m i δ).map Prod.fst = m.map Prod.fst := by
  unfold adjustStock
  rw [List.map_map]
  apply List.map_congr_left
  intro p _
  by_cases h : (p.1 == i) = true <;> simp [Function.comp, h]

theorem adjustStock_nonneg {m : List (Nat × Int)} {i : Nat} {δ : Int}
    (hnn : ∀ p ∈ m, 0 ≤ p.2) (hδ : 0 ≤ δ) :
    ∀ p' ∈ adjustStock m i δ, 0 ≤ p'.2 := by
  intro p' hp'
  obtain ⟨p, hp, rfl⟩ := List.mem_map.mp hp'
  by_cases h : (p.1 == i) = true
  · simp only [h, if_pos]
    exact add_nonneg (hnn p hp) hδ
  · simp only [h, if_neg, Bool.false_eq_true, not_false_iff, ite_false]
    exact hnn p hp

theorem pair_eq_of_mem_of_find?_nodup {m : List (Nat × Int)} {i : Nat}
    {p0 p : Nat × Int} (hnd : (m.map Prod.fst).Nodup)
    (hfind : m.find? (fun p => p.1 == i) = some p0)
    (hp : p ∈ m) (hpi : p.1 = i) : p = p0 := by
  have hmem : p0 ∈ m := List.mem_of_find?_eq_some hfind
  have hp0 : p0.1 = i := by simpa using List.find?_some hfind
  exact List.inj_on_of_nodup_map hnd hp hmem (by rw [hpi, hp0])

theorem adjustStock_nonneg_checked {m : List (Nat × Int)} {i : Nat} {δ : Int}
    {p0 : Nat × Int} (hnd : (m.map Prod.fst).Nodup)
    (hnn : ∀ p ∈ m, 0 ≤ p.2)
    (hfind : m.find? (fun p => p.1 == i) = some p0)
    (hsafe : 0 ≤ p0.2 + δ) :
    ∀ p' ∈ adjustStock m i δ, 0 ≤ p'.2 := by
  intro p' hp'
  obtain ⟨p, hp, rfl⟩ := List.mem_map.mp hp'
  by_cases h : (p.1 == i) = true
  · have : p = p0 := pair_eq_of_mem_of_find?_nodup hnd hfind hp (by simpa using h)
    subst this
    simpa [h] using hsafe
  · simp only [h, if_neg, Bool.false_eq_true, not_false_iff, ite_false]
    exact hnn p hp

theorem adjustStock_of_lookup_none {m : List (Nat × Int)} {i : Nat} (δ : Int)
    (h : lookupStock m i = none) : adjustStock m i δ = m := by
  have hfind : m.find? (fun p => p.1 == i) = none := by
    simpa [lookupStock] using h
  have hall := List.find?_eq_none.mp hfind
  unfold adjustStock
  calc m.map (fun p => if p.1 == i then (p.1, p.2 + δ) else p)
      = m.map id := List.map_congr_left (fun p hp => by simp [hall p hp])
    _ = m := List.map_id m

theorem stocksOf_applyStockDelta (items : List Item) (i : Nat) (δ : Int) :
    stocksOf (applyStockDelta items i δ) = adjustStock (stocksOf items) i δ := by
  unfold stocksOf applyStockDelta adjustStock
  rw [List.map_map, List.map_map]
  apply List.map_congr_left
  intro it _
  by_cases h : (it.id == i) = true <;> simp [Function.comp, h]

theorem stocksOf_keys (items : List Item) :
    (stocksOf items).map Prod.fst = items.map Item.id := by
  unfold stocksOf
  rw [List.map_map]
  rfl

theorem mem_stocksOf {items : List Item} {it : Item} (h : it ∈ items) :
    (it.id, it.current_stock) ∈ stocksOf items :=
  List.mem_map.mpr ⟨it, h, rfl⟩

/-- Fresh database for the C10 counterexample and witness: one item of
stock 4. -/
def c10_db : DB := ⟨[exItem 1 4], [], 1⟩

/-- C10 — counterexample. The claim asserts the unchecked decrement for
*every* type string other than `IN`/`OUT`, but a call with the legacy tag
`REVERSAL` (outside the schema's `CHECK(type IN ...)` enum) makes the
`INSERT` violate the constraint: the call returns `False` with no state
change instead of decrementing the stock by the quantity. -/
theorem C10_counterexample :
    record_transaction c10_db 1 "d" "REVERSAL" 1 "r" "p" = none ∧
    typeCheckOK "REVERSAL" = false ∧
    getStock c10_db 1 = some 4 := by decide

/-- C10 — amended claim. `record_transaction` decides the stock delta solely
by `type == 'IN'` and runs the item-existence/stock pre-check only for
`type == 'OUT'`; hence a call whose type is `REVERSAL-IN` or `REVERSAL-OUT`
(the remaining values admitted by the schema's type CHECK) always succeeds,
decrements the item's stock by the quantity with no existence or
insufficiency check, and appends the row — while a call whose type lies
outside the CHECK enum fails on the `INSERT` with no state change. -/
theorem C10_record_other_type_unchecked_decrement (db : DB) (i : Nat)
    (d ty : String) (q : Int) (rs pr : String) :
    (ty = "REVERSAL-IN" ∨ ty = "REVERSAL-OUT" →
      record_transaction db i d ty q rs pr =
        some { db with
               items := applyStockDelta db.items i (-q),
               txns := db.txns ++ [⟨db.next_tx_id, i, d, ty, q, rs, pr⟩],
               next_tx_id := db.next_tx_id + 1 }) ∧
    (typeCheckOK ty = false → record_transaction db i d ty q rs pr = none) := by
  constructor
  · rintro (rfl | rfl) <;>
      simp [record_transaction, typeCheckOK, insertTxn]
  · intro hbad
    have h2 : (ty == "OUT") = false := by
      cases he : (ty == "OUT") with
      | false => rfl
      | true => simp [typeCheckOK, he] at hbad
    simp [record_transaction, hbad, h2]

/-- C3 — amended claim. `record_transaction` performs the existence check only
as part of the OUT stock pre-check: an OUT call fails with no state change when
the item is missing or has stock below the quantity; an IN call never fails
(even on a missing item, where the stock `UPDATE` touches no row but a
transaction row is still appended); every successful call applies the type's
stock delta and appends exactly one transaction row. -/
theorem C3_record_checks (db db' : DB) (i : Nat) (d ty : String) (q s : Int)
    (rs pr : String) :
    (getStock db i = none → record_transaction db i d "OUT" q rs pr = none) ∧
    (getStock db i = some s → s < q → record_transaction db i d "OUT" q rs pr = none) ∧
    ((record_transaction db i d "IN" q rs pr).isSome = true) ∧
    (record_transaction db i d ty q rs pr = some db' →
      db'.items = applyStockDelta db.items i (if ty == "IN" then q else -q) ∧
      db'.txns = db.txns ++ [⟨db.next_tx_id, i, d, ty, q, rs, pr⟩] ∧
      db'.next_tx_id = db.next_tx_id + 1) := by
  refine ⟨?_, ?_, ?_, ?_⟩
  · intro h
    simp [record_transaction, h]
  · intro h hlt
    simp [record_transaction, h, hlt]
  · simp [record_transaction, typeCheckOK]
  · intro h
    simp only [record_transaction] at h
    repeat' split at h
    all_goals first
      | exact Option.noConfusion h
      | (injection h with h'
         subst h'
         refine ⟨?_, ?_, ?_⟩ <;> simp_all [insertTxn])

/-- Database for the C3 witness: one item of stock 2. -/
def c3w_db : DB := ⟨[exItem 1 2], [], 1⟩

/-- Witness for C3: an OUT of 5 at stock 2 is refused; an IN always succeeds. -/
theorem C3_witness :
    getStock c3w_db 1 = some 2 ∧ (2 : Int) < 5 ∧
    record_transaction c3w_db 1 "d" "OUT" 5 "r" "p" = none ∧
    (record_transaction c3w_db 1 "d" "IN" 5 "r" "p").isSome = true :=
  ⟨by decide, by decide,
    (C3_record_checks c3w_db c3w_db 1 "d" "IN" 5 2 "r" "p").2.1 (by decide) (by decide),
    (C3_record_checks c3w_db c3w_db 1 "d" "IN" 5 2 "r" "p").2.2.1⟩

/-- Witness for C10: a `REVERSAL-IN` record call at stock 4 succeeds and
decrements by its quantity (the sign table would add it), while the
out-of-enum legacy tag `REVERSAL` is refused by the schema CHECK. -/
theorem C10_witness :
    (("REVERSAL-IN" : String) = "REVERSAL-IN" ∨
      ("REVERSAL-IN" : String) = "REVERSAL-OUT") ∧
    record_transaction c10_db 1 "d" "REVERSAL-IN" 3 "r" "p" =
      some { c10_db with
             items := applyStockDelta c10_db.items 1 (-3),
             txns := c10_db.txns ++ [⟨c10_db.next_tx_id, 1, "d", "REVERSAL-IN", 3, "r", "p"⟩],
             next_tx_id := c10_db.next_tx_id + 1 } ∧
    typeCheckOK "REVERSAL" = false ∧
    record_transaction c10_db 1 "d" "REVERSAL" 3 "r" "p" = none :=
  ⟨Or.inl rfl,
   (C10_record_other_type_unchecked_decrement c10_db 1 "d" "REVERSAL-IN" 3 "r" "p").1
     (Or.inl rfl),
   by decide,
   (C10_record_other_type_unchecked_decrement c10_db 1 "d" "REVERSAL" 3 "r" "p").2
     (by decide)⟩


theorem forall₂_map_self {α β : Type} {R : α → β → Prop} {g : α → β}
    (l : List α) (h : ∀ a ∈ l, R a (g a)) : List.Forall₂ R l (l.map g) := by
  induction l with
  | nil => exact List.Forall₂.nil
  | cons a rest ih =>
    exact List.Forall₂.cons (h a (List.mem_cons_self a rest))
      (ih fun x hx => h x (List.mem_cons_of_mem a hx))

/-- C9 — confirmed. A successful `update_inventory_item` call leaves the
ledger untouched and rewrites only the matching item row, overwriting exactly
name/reference/category/domain/unit/min_stock/location there; every item's
`id` and `current_stock` are unchanged and every other row is unmodified. -/
theorem C9_catalog_update_frame (db db' : DB) (item_id : Nat)
    (name reference category domain unit : String) (min_stock : Int)
    (location : String)
    (h : update_inventory_item db item_id name reference category domain unit
      min_stock location = some db') :
    db'.txns = db.txns ∧ db'.next_tx_id = db.next_tx_id ∧
    List.Forall₂ (fun a b : Item =>
      b.id = a.id ∧ b.current_stock = a.current_stock ∧
      (a.id ≠ item_id → b = a) ∧
      (a.id = item_id → b =
        { a with name := name, reference := reference, category := category,
                 domain := domain, unit := unit, min_stock := min_stock,
                 location := location })) db.items db'.items := by
  simp only [update_inventory_item] at h
  split at h
  · injection h with h'
    subst h'
    refine ⟨rfl, rfl, forall₂_map_self db.items fun a _ => ?_⟩
    by_cases hid : (a.id == item_id) = true
    · have hid' : a.id = item_id := by simpa using hid
      refine ⟨?_, ?_, fun hne => absurd hid' hne, fun _ => ?_⟩ <;> simp [hid]
    · have hid' : a.id ≠ item_id := by simpa using hid
      refine ⟨?_, ?_, fun _ => ?_, fun heq => absurd heq hid'⟩ <;> simp [hid]
  · exact absurd h (by simp)

/-- Database for the C9 witness: two items and one ledger row. -/
def c9_db : DB := ⟨[exItem 1 5, exItem 2 7], [⟨1, 1, "d", "IN", 5, "r", "p"⟩], 2⟩

/-- Result of the C9 witness call: item 1's catalog fields rewritten, stock
untouched. -/
def c9_final : DB :=
  ⟨[⟨1, "n2", "r2", "c2", "d2", "u2", 5, 9, "L2"⟩, exItem 2 7],
   [⟨1, 1, "d", "IN", 5, "r", "p"⟩], 2⟩

/-- Witness for C9 at a concrete catalog update. -/
theorem C9_witness :
    update_inventory_item c9_db 1 "n2" "r2" "c2" "d2" "u2" 9 "L2" = some c9_final ∧
    (c9_final.txns = c9_db.txns ∧ c9_final.next_tx_id = c9_db.next_tx_id ∧
      List.Forall₂ (fun a b : Item =>
        b.id = a.id ∧ b.current_stock = a.current_stock ∧
        (a.id ≠ 1 → b = a) ∧
        (a.id = 1 → b =
          { a with name := "n2", reference := "r2", category := "c2",
                   domain := "d2", unit := "u2", min_stock := 9,
                   location := "L2" })) c9_db.items c9_final.items) :=
  ⟨by decide,
   C9_catalog_update_frame c9_db c9_final 1 "n2" "r2" "c2" "d2" "u2" 9 "L2"
     (by decide)⟩

/-- C7 — confirmed. `update_transaction` refuses rows whose type starts with
`REVERSAL`; on success it applies the undo-then-reapply delta
(`undo(original type, original quantity) + apply(same type, new quantity)`,
signs per the `IN`-vs-rest branch of the source) to the item and overwrites
only quantity/date/recipient_source/project_ref on the existing row (type,
item id and row count unchanged). The claim's concrete instance — OUT of 10
at stock 20 updated to 4 gives stock 26 and stored quantity 4 — is the
witness below. -/
theorem C7_update_undo_reapply (db db' : DB) (txid : Nat) (q : Int)
    (d rs pr : String) (tx : Txn)
    (hf : db.txns.find? (fun t => t.id == txid) = some tx) :
    (pyStartswith tx.type "REVERSAL" = true →
      update_transaction db txid q d rs pr = none) ∧
    (update_transaction db txid q d rs pr = some db' →
      db'.items = applyStockDelta db.items tx.item_id
        ((if tx.type == "IN" then -tx.quantity else tx.quantity) +
         (if tx.type == "IN" then q else -q)) ∧
      db'.txns = db.txns.map (fun t => if t.id == txid then
        { t with quantity := q, date := d, recipient_source := rs,
                 project_ref := pr } else t) ∧
      db'.next_tx_id = db.next_tx_id) := by
  constructor
  · intro hs
    simp [update_transaction, hf, hs]
  · intro h
    simp only [update_transaction, hf] at h
    repeat' split at h
    all_goals first
      | exact Option.noConfusion h
      | (injection h with h'
         subst h'
         refine ⟨?_, ?_, ?_⟩ <;> simp_all)

/-- Database for the C7 witness: one item at stock 20 and one OUT row of
quantity 10. -/
def c7_db : DB := ⟨[exItem 1 20], [⟨1, 1, "d", "OUT", 10, "r", "p"⟩], 2⟩

/-- The original OUT row of the C7 witness. -/
def c7_tx : Txn := ⟨1, 1, "d", "OUT", 10, "r", "p"⟩

/-- State after the C7 witness update: stock 26, stored quantity 4. -/
def c7_final : DB := ⟨[exItem 1 26], [⟨1, 1, "d2", "OUT", 4, "r2", "p2"⟩], 2⟩

/-- Witness for C7: updating the OUT of 10 (item stock 20) to quantity 4
succeeds with stock 26 and the row's stored quantity 4. -/
theorem C7_witness :
    (c7_db.txns.find? (fun t => t.id == 1) = some c7_tx) ∧
    update_transaction c7_db 1 4 "d2" "r2" "p2" = some c7_final ∧
    c7_final.items = applyStockDelta c7_db.items c7_tx.item_id
      ((if c7_tx.type == "IN" then -c7_tx.quantity else c7_tx.quantity) +
       (if c7_tx.type == "IN" then 4 else -4)) ∧
    getStock c7_final 1 = some 26 ∧
    c7_final.txns = [⟨1, 1, "d2", "OUT", 4, "r2", "p2"⟩] :=
  ⟨by decide, by decide,
   ((C7_update_undo_reapply c7_db c7_final 1 4 "d2" "r2" "p2" c7_tx
      (by decide)).2 (by decide)).1,
   by decide, by decide⟩

/-- C6 — confirmed. For an existing row of type `IN` (resp. `OUT`),
`reverse_transaction` appends one new row of type `REVERSAL-OUT` with stock
delta `−q` (resp. `REVERSAL-IN` with delta `+q`) carrying the original
quantity, applies that delta to the item — checking sufficient stock first
when the delta is negative and failing with no change when the item is
missing or its stock is below the quantity — and leaves the original row (and
all other rows) untouched; a row whose type starts with `REVERSAL` is refused
outright. -/
theorem C6_reverse_append_only (db db' : DB) (txid : Nat) (now : String)
    (otx : Txn) (hf : db.txns.find? (fun t => t.id == txid) = some otx) :
    (pyStartswith otx.type "REVERSAL" = true →
      reverse_transaction db txid now = none) ∧
    (otx.type = "IN" →
      (reverse_transaction db txid now = some db' →
        db'.items = applyStockDelta db.items otx.item_id (-otx.quantity) ∧
        db'.txns = db.txns ++ [⟨db.next_tx_id, otx.item_id, now, "REVERSAL-OUT",
          otx.quantity,
          "冲销-入库 (原ID:" ++ toString txid ++ ", " ++ otx.recipient_source ++ ")",
          "冲销-原项目:" ++ otx.project_ref⟩] ∧
        db'.next_tx_id = db.next_tx_id + 1) ∧
      (-otx.quantity < 0 →
        (∀ s, getStock db otx.item_id = some s → s < otx.quantity) →
        reverse_transaction db txid now = none)) ∧
    (otx.type = "OUT" →
      (reverse_transaction db txid now = some db' →
        db'.items = applyStockDelta db.items otx.item_id otx.quantity ∧
        db'.txns = db.txns ++ [⟨db.next_tx_id, otx.item_id, now, "REVERSAL-IN",
          otx.quantity,
          "冲销-出库 (原ID:" ++ toString txid ++ ", " ++ otx.recipient_source ++ ")",
          "冲销-原项目:" ++ otx.project_ref⟩] ∧
        db'.next_tx_id = db.next_tx_id + 1) ∧
      (otx.quantity < 0 →
        (∀ s, getStock db otx.item_id = some s → s < otx.quantity) →
        reverse_transaction db txid now = none)) := by
  refine ⟨?_, fun hIN => ⟨?_, ?_⟩, fun hOUT => ⟨?_, ?_⟩⟩
  · intro hs
    have h1 : (otx.type == "IN") = false := by
      cases he : (otx.type == "IN") with
      | false => rfl
      | true => rw [eq_of_beq he] at hs; exact absurd hs (by decide)
    have h2 : (otx.type == "OUT") = false := by
      cases he : (otx.type == "OUT") with
      | false => rfl
      | true => rw [eq_of_beq he] at hs; exact absurd hs (by decide)
    simp [reverse_transaction, hf, h1, h2]
  · intro h
    simp only [reverse_transaction, hf, hIN] at h
    repeat' split at h
    all_goals first
      | exact Option.noConfusion h
      | (injection h with h'
         subst h'
         refine ⟨?_, ?_, ?_⟩ <;> simp_all [insertTxn])
  · intro hneg hins
    simp only [reverse_transaction, hf, hIN]
    rw [if_pos (by decide), if_pos (by simpa using hneg)]
    rcases hgs : getStock db otx.item_id with _ | s
    · rfl
    · simp [hins s hgs]
  · intro h
    simp only [reverse_transaction, hf, hOUT] at h
    repeat' split at h
    all_goals first
      | exact Option.noConfusion h
      | (injection h with h'
         subst h'
         refine ⟨?_, ?_, ?_⟩ <;> simp_all [insertTxn])
  · intro hneg hins
    simp only [reverse_transaction, hf, hOUT]
    rw [if_neg (by decide), if_pos (by decide), if_pos (by simpa using hneg)]
    rcases hgs : getStock db otx.item_id with _ | s
    · rfl
    · simp [hins s hgs]

/-- Database for the C6 witness: one item at stock 10 and one IN row of
quantity 4. -/
def c6_db : DB := ⟨[exItem 1 10], [⟨1, 1, "d", "IN", 4, "r", "p"⟩], 2⟩

/-- State after reversing the IN of 4: stock 6, REVERSAL-OUT row appended,
original row untouched. -/
def c6_final : DB :=
  ⟨[exItem 1 6],
   [⟨1, 1, "d", "IN", 4, "r", "p"⟩,
    ⟨2, 1, "now", "REVERSAL-OUT", 4, "冲销-入库 (原ID:1, r)", "冲销-原项目:p"⟩], 3⟩

/-- Witness for C6: reversing an IN of 4 at stock 10 succeeds, appends the
compensating REVERSAL-OUT row and subtracts 4. -/
theorem C6_witness :
    (c6_db.txns.find? (fun t => t.id == 1) = some ⟨1, 1, "d", "IN", 4, "r", "p"⟩) ∧
    reverse_transaction c6_db 1 "now" = some c6_final ∧
    (c6_final.items = applyStockDelta c6_db.items 1 (-4) ∧
      c6_final.txns = c6_db.txns ++ [⟨2, 1, "now", "REVERSAL-OUT", 4,
        "冲销-入库 (原ID:1, r)", "冲销-原项目:p"⟩] ∧
      c6_final.next_tx_id = c6_db.next_tx_id + 1) :=
  ⟨by decide, by decide,
   by
    have h := (C6_reverse_append_only c6_db c6_final 1 "now"
      ⟨1, 1, "d", "IN", 4, "r", "p"⟩ (by decide)).2.1 rfl
    exact h.1 (by decide)⟩

/-- C4 — amended claim. When the sequential in-memory pre-check of an OUT
batch hits a line that would drive an item's projected stock negative, the
entire batch aborts with no partial commit: the database is returned
unchanged (every item's stock untouched, no transaction row written) and
`successful_count = 0`; the reported `failed_transactions` are exactly the
lines the pre-check had failed so far — the unknown-item lines seen before
the offending line followed by the offending line itself — not all lines. -/
theorem C4_insufficient_stock_aborts_batch (db : DB) (rs now : String)
    (ls failed : List BatchLine)
    (h : precheck "OUT" (stocksOf db.items) ls [] = .error failed) :
    batch_record_transactions db "OUT" rs ls now =
      ({ successful_count := 0, failed_transactions := failed,
         invalid_type := false }, db) := by
  have hup : pyUpper "OUT" = "OUT" := by decide
  simp only [batch_record_transactions, hup, h]
  rw [if_pos (by decide)]

/-- Witness for C4: the two-line OUT batch of `c4_db` (10 and 3 in stock,
both lines ask 5) pre-checks to an abort on line 2, and the batch call
returns the unchanged database with only line 2 reported failed. -/
theorem C4_witness :
    precheck "OUT" (stocksOf c4_db.items) [⟨1, 5, "P"⟩, ⟨2, 5, "P"⟩] [] =
      .error [⟨2, 5, "P"⟩] ∧
    batch_record_transactions c4_db "OUT" "Bob" [⟨1, 5, "P"⟩, ⟨2, 5, "P"⟩] "now" =
      ({ successful_count := 0, failed_transactions := [⟨2, 5, "P"⟩],
         invalid_type := false }, c4_db) :=
  ⟨by decide,
   C4_insufficient_stock_aborts_batch c4_db "Bob" "now" [⟨1, 5, "P"⟩, ⟨2, 5, "P"⟩]
     [⟨2, 5, "P"⟩] (by decide)⟩

theorem lookupStock_some {m : List (Nat × Int)} {i : Nat} {s : Int}
    (h : lookupStock m i = some s) :
    ∃ p0, m.find? (fun p => p.1 == i) = some p0 ∧ p0.2 = s := by
  simpa [lookupStock] using h

theorem applyLine_items (tu rs now : String) (db : DB) (l : BatchLine) :
    (applyLine tu rs now db l).items =
      applyStockDelta db.items l.item_id
        (if tu == "IN" then l.quantity else -l.quantity) := rfl

theorem foldl_applyLine_items (tu rs now : String) :
    ∀ (ls : List BatchLine) (db : DB),
      (List.foldl (applyLine tu rs now) db ls).items =
        List.foldl (fun its l => applyStockDelta its l.item_id
          (if tu == "IN" then l.quantity else -l.quantity)) db.items ls
  | [], _ => rfl
  | l :: rest, db => by
    rw [List.foldl_cons, List.foldl_cons, foldl_applyLine_items tu rs now rest,
      applyLine_items]

theorem stocksOf_foldl_delta (δf : BatchLine → Int) :
    ∀ (ls : List BatchLine) (items : List Item),
      stocksOf (List.foldl (fun its l => applyStockDelta its l.item_id (δf l)) items ls) =
        List.foldl (fun m l => adjustStock m l.item_id (δf l)) (stocksOf items) ls
  | [], _ => rfl
  | l :: rest, items => by
    rw [List.foldl_cons, List.foldl_cons, stocksOf_foldl_delta δf rest,
      stocksOf_applyStockDelta]

theorem precheck_ok_stocks {tu : String} (htu : tu = "IN" ∨ tu = "OUT") :
    ∀ (ls : List BatchLine) (stocks : List (Nat × Int)) (failed : List BatchLine)
      (stocks' : List (Nat × Int)) (f' : List BatchLine),
      precheck tu stocks ls failed = .ok (stocks', f') →
      stocks' = List.foldl (fun m l => adjustStock m l.item_id
        (if tu == "IN" then l.quantity else -l.quantity)) stocks ls := by
  intro ls
  induction ls with
  | nil =>
    intro stocks failed stocks' f' h
    simp only [precheck] at h
    injection h with h'
    injection h' with e1 e2
    exact e1.symm
  | cons l rest ih =>
    intro stocks failed stocks' f' h
    simp only [precheck] at h
    rw [List.foldl_cons]
    rcases hl : lookupStock stocks l.item_id with _ | cur
    · simp only [hl] at h
      rw [adjustStock_of_lookup_none _ hl]
      exact ih stocks (failed ++ [l]) stocks' f' h
    · simp only [hl] at h
      rcases htu with h1 | h1
      · subst h1
        rw [if_neg (by decide)] at h
        rw [if_pos (by decide)]
        exact ih _ failed stocks' f' h
      · subst h1
        rw [if_pos (by decide)] at h
        split at h
        · exact Except.noConfusion h
        · rw [if_neg (by decide)]
          exact ih _ failed stocks' f' h

theorem precheck_ok_nonneg {tu : String} (htu : tu = "IN" ∨ tu = "OUT") :
    ∀ (ls : List BatchLine) (stocks : List (Nat × Int)) (failed : List BatchLine)
      (stocks' : List (Nat × Int)) (f' : List BatchLine),
      (stocks.map Prod.fst).Nodup → (∀ p ∈ stocks, 0 ≤ p.2) →
      (∀ l ∈ ls, 0 ≤ l.quantity) →
      precheck tu stocks ls failed = .ok (stocks', f') →
      ∀ p ∈ stocks', 0 ≤ p.2 := by
  intro ls
  induction ls with
  | nil =>
    intro stocks failed stocks' f' _ hnn _ h
    simp only [precheck] at h
    injection h with h'
    injection h' with e1 e2
    rw [← e1]
    exact hnn
  | cons l rest ih =>
    intro stocks failed stocks' f' hnd hnn hq h
    have hqrest : ∀ x ∈ rest, 0 ≤ x.quantity :=
      fun x hx => hq x (List.mem_cons_of_mem l hx)
    simp only [precheck] at h
    rcases hl : lookupStock stocks l.item_id with _ | cur
    · simp only [hl] at h
      exact ih stocks (failed ++ [l]) stocks' f' hnd hnn hqrest h
    · simp only [hl] at h
      obtain ⟨p0, hfind, hp0⟩ := lookupStock_some hl
      rcases htu with h1 | h1
      · subst h1
        rw [if_neg (by decide)] at h
        refine ih _ failed stocks' f' ?_ ?_ hqrest h
        · rw [adjustStock_keys]; exact hnd
        · exact adjustStock_nonneg hnn (hq l (List.mem_cons_self l rest))
      · subst h1
        rw [if_pos (by decide)] at h
        split at h
        · exact Except.noConfusion h
        · next hlt =>
          refine ih _ failed stocks' f' ?_ ?_ hqrest h
          · rw [adjustStock_keys]; exact hnd
          · refine adjustStock_nonneg_checked hnd hnn hfind ?_
            rw [hp0]
            omega

theorem stocksOf_nonneg_of_items {items : List Item}
    (h : ∀ it ∈ items, 0 ≤ it.current_stock) :
    ∀ p ∈ stocksOf items, 0 ≤ p.2 := by
  intro p hp
  obtain ⟨it, hit, rfl⟩ := List.mem_map.mp hp
  exact h it hit

theorem items_nonneg_of_stocksOf {items : List Item}
    (h : ∀ p ∈ stocksOf items, 0 ≤ p.2) :
    ∀ it ∈ items, 0 ≤ it.current_stock :=
  fun it hit => h (it.id, it.current_stock) (mem_stocksOf hit)

/-- C2 — amended claim. From any state with distinct item ids (the primary
key), all stocks non-negative and all ledger-row quantities non-negative (the
data model of §3), no successful Ledger Store operation whose arguments stay
inside the documented interface — single and batch recording restricted to
the `IN`/`OUT` types with non-negative quantities — leaves any item with
`current_stock < 0`. (Unrestricted `record_transaction` breaks this: see the
counterexample.) -/
theorem C2_no_negative_stock (db db' : DB) (op : LedgerOp)
    (hnd : itemIdsNodup db) (hnn : stocksNonneg db) (hq : qtysNonneg db)
    (hop : opOK op) (h : applyOp db op = some db') :
    stocksNonneg db' := by
  cases op with
  | record i d t q' rs pr =>
    obtain ⟨ht, hq'⟩ := hop
    simp only [applyOp] at h
    rcases hgs : getStock db i with _ | s
    all_goals (
      simp only [record_transaction, hgs] at h
      repeat' split at h
      all_goals first
        | exact Option.noConfusion h
        | (injection h with h'
           subst h'
           intro it hit
           first
             | exact applyStockDelta_nonneg hnn (by omega) it hit
             | (obtain ⟨it0, hfind, hst⟩ := getStock_some hgs
                exact applyStockDelta_nonneg_checked hnd hnn hfind (by omega) it hit)
             | (exfalso; rcases ht with h1 | h1 <;> subst h1 <;> simp_all)))
  | batch t rs ls now =>
    obtain ⟨ht, hql⟩ := hop
    simp only [applyOp] at h
    injection h with h'
    subst h'
    simp only [batch_record_transactions]
    have hcond : ((pyUpper t == "IN") || (pyUpper t == "OUT")) = true := by
      rcases ht with h1 | h1 <;> rw [h1] <;> decide
    rw [if_pos hcond]
    rcases hpc : precheck (pyUpper t) (stocksOf db.items) ls [] with f | pair
    · simp only [hpc]
      exact hnn
    · obtain ⟨stocks1, f1⟩ := pair
      simp only [hpc]
      intro it hit
      have hbridge : stocksOf (List.foldl (applyLine (pyUpper t) rs now) db ls).items
          = List.foldl (fun m l => adjustStock m l.item_id
              (if pyUpper t == "IN" then l.quantity else -l.quantity))
            (stocksOf db.items) ls := by
        rw [foldl_applyLine_items]
        exact stocksOf_foldl_delta _ ls db.items
      have hst1 := precheck_ok_stocks ht ls (stocksOf db.items) [] stocks1 f1 hpc
      have hnn1 : ∀ p ∈ stocks1, 0 ≤ p.2 :=
        precheck_ok_nonneg ht ls (stocksOf db.items) [] stocks1 f1
          (by rw [stocksOf_keys]; exact hnd)
          (stocksOf_nonneg_of_items hnn) hql hpc
      have hall : ∀ p ∈ stocksOf (List.foldl (applyLine (pyUpper t) rs now) db ls).items,
          0 ≤ p.2 := by
        rw [hbridge, ← hst1]
        exact hnn1
      exact items_nonneg_of_stocksOf hall it hit
  | reverse txid now =>
    simp only [applyOp] at h
    rcases hf : db.txns.find? (fun t => t.id == txid) with _ | otx
    · simp only [reverse_transaction, hf] at h
      exact Option.noConfusion h
    · have hq0 : 0 ≤ otx.quantity := hq otx (List.mem_of_find?_eq_some hf)
      rcases hgs : getStock db otx.item_id with _ | s
      all_goals (
        simp only [reverse_transaction, hf, hgs] at h
        repeat' split at h
        all_goals first
          | exact Option.noConfusion h
          | (injection h with h'
             subst h'
             intro it hit
             first
               | exact applyStockDelta_nonneg hnn (by omega) it hit
               | (obtain ⟨it0, hfind, hst⟩ := getStock_some hgs
                  exact applyStockDelta_nonneg_checked hnd hnn hfind (by omega) it hit)))
  | update txid q' d rs pr =>
    simp only [applyOp] at h
    rcases hf : db.txns.find? (fun t => t.id == txid) with _ | tx
    · simp only [update_transaction, hf] at h
      exact Option.noConfusion h
    · rcases hgs : getStock db tx.item_id with _ | s
      all_goals (
        simp only [update_transaction, hf, hgs] at h
        repeat' split at h
        all_goals first
          | exact Option.noConfusion h
          | (injection h with h'
             subst h'
             intro it hit
             first
               | exact applyStockDelta_nonneg hnn (by omega) it hit
               | (obtain ⟨it0, hfind, hst⟩ := getStock_some hgs
                  exact applyStockDelta_nonneg_checked hnd hnn hfind (by omega) it hit)))
  | delete txid =>
    simp only [applyOp] at h
    rcases hf : db.txns.find? (fun t => t.id == txid) with _ | tx
    · simp only [delete_transaction, hf] at h
      exact Option.noConfusion h
    · rcases hgs : getStock db tx.item_id with _ | s
      all_goals (
        simp only [delete_transaction, hf, hgs] at h
        repeat' split at h
        all_goals first
          | exact Option.noConfusion h
          | (injection h with h'
             subst h'
             intro it hit
             first
               | exact applyStockDelta_nonneg hnn (by omega) it hit
               | (obtain ⟨it0, hfind, hst⟩ := getStock_some hgs
                  exact applyStockDelta_nonneg_checked hnd hnn hfind (by omega) it hit)))

/-- Database for the C2 witness: one item at stock 0, empty ledger. -/
def c2w_db : DB := ⟨[exItem 1 0], [], 1⟩

/-- State after the C2 witness operation: stock 5. -/
def c2w_final : DB := ⟨[exItem 1 5], [⟨1, 1, "d", "IN", 5, "r", "p"⟩], 2⟩

/-- Witness for C2: a well-formed IN record of 5 preserves non-negativity. -/
theorem C2_witness :
    itemIdsNodup c2w_db ∧ stocksNonneg c2w_db ∧ qtysNonneg c2w_db ∧
    opOK (.record 1 "d" "IN" 5 "r" "p") ∧
    applyOp c2w_db (.record 1 "d" "IN" 5 "r" "p") = some c2w_final ∧
    stocksNonneg c2w_final :=
  ⟨by decide, by decide, by decide, ⟨Or.inl rfl, by decide⟩, by decide,
   C2_no_negative_stock c2w_db c2w_final (.record 1 "d" "IN" 5 "r" "p")
     (by decide) (by decide) (by decide) ⟨Or.inl rfl, by decide⟩ (by decide)⟩

end HonsenWMS
